import Mathlib

/-!
Shallow embedding of the BidSync marketplace backend.

The data model follows the SQL migration (tables `User`, `Project`, `Bid`,
`File` with their enums), and each operation is a direct translation of the
corresponding Express controller: `register`/`login` from the auth
controller, the project operations from `project.controller.js`, the bid
operations from `bid.controller.js`.  The relational store is modelled as
lists of rows; each Prisma call becomes the matching list operation
(`findUnique` by primary key → `List.find?` on the id, `update where id` →
a map touching rows with that id, `updateMany` → a map over the matching
rows, `delete` → a filter).  JavaScript request bodies are modelled with
`Option` fields, `!x` truthiness of a string field meaning absent or empty.
Each controller returns `Except ApiError (Store × response)`: every `throw`
site in the source appears as an `Except.error` carrying the `statusCode`
and message the source attaches, and the store returned on success reflects
exactly the Prisma writes the handler performs, in order.
-/

deriving instance DecidableEq for Except

namespace BidSync

/-- `UserRole` enum from the schema. -/
inductive Role where
  | BUYER
  | SELLER
deriving DecidableEq

/-- `ProjectStatus` enum from the schema. -/
inductive ProjectStatus where
  | PENDING
  | IN_PROGRESS
  | COMPLETED
deriving DecidableEq

/-- `BidStatus` enum from the schema. -/
inductive BidStatus where
  | PENDING
  | ACCEPTED
  | REJECTED
deriving DecidableEq

/-- A row of the `User` table (timestamps and optional avatar omitted:
no controller logic reads them). -/
structure User where
  id : String
  email : String
  password : String
  name : String
  role : Role
deriving DecidableEq

/-- A row of the `Project` table.  `deadline` is kept as the raw string the
request supplied (the `new Date(...)` conversion is an external concern). -/
structure Project where
  id : String
  title : String
  description : String
  budgetMin : Int
  budgetMax : Int
  deadline : String
  status : ProjectStatus
  buyerId : String
  sellerId : Option String
deriving DecidableEq

/-- A row of the `Bid` table. -/
structure Bid where
  id : String
  amount : Int
  deliveryTime : Int
  message : String
  status : BidStatus
  projectId : String
  sellerId : String
deriving DecidableEq

/-- A row of the `File` table. -/
structure FileRec where
  id : String
  name : String
  path : String
  size : Int
  mimeType : String
  projectId : String
deriving DecidableEq

/-- The relational store: one list of rows per table. -/
structure Store where
  users : List User
  projects : List Project
  bids : List Bid
  files : List FileRec
deriving DecidableEq

/-- An error as thrown by the controllers: a `statusCode` attached to an
`Error` with a message, rendered by the global error handler. -/
structure ApiError where
  statusCode : Nat
  message : String
deriving DecidableEq

/-- The authenticated user the middleware attaches to the request. -/
structure AuthUser where
  id : String
  email : String
  name : String
  role : Role
deriving DecidableEq

/-- JavaScript truthiness of an optional string request field:
`!x` is true when the field is absent or the empty string. -/
def strTruthy : Option String → Bool
  | none => false
  | some s => !s.isEmpty

/-- JavaScript truthiness of an optional numeric request field:
`!x` is true when the field is absent or zero. -/
def numTruthy : Option Int → Bool
  | none => false
  | some n => n != 0

/-- `prisma.user.findUnique({ where: { email } })` (email is unique). -/
def findUserByEmail (s : Store) (email : String) : Option User :=
  s.users.find? (fun u => u.email == email)

/-- `prisma.project.findUnique({ where: { id } })`. -/
def findProject (s : Store) (id : String) : Option Project :=
  s.projects.find? (fun p => p.id == id)

/-- `prisma.bid.findUnique({ where: { id } })`. -/
def findBid (s : Store) (id : String) : Option Bid :=
  s.bids.find? (fun b => b.id == id)

/-- `prisma.bid.findFirst({ where: { projectId, sellerId } })`. -/
def findBidByProjectSeller (s : Store) (projectId sellerId : String) : Option Bid :=
  s.bids.find? (fun b => b.projectId == projectId && b.sellerId == sellerId)

/-- `prisma.project.update({ where: { id } })`: rewrite the row with that id. -/
def updateProjectRow (s : Store) (id : String) (f : Project → Project) : Store :=
  { s with projects := s.projects.map (fun p => if p.id == id then f p else p) }

/-- `prisma.bid.update({ where: { id } })`: rewrite the row with that id. -/
def updateBidRow (s : Store) (id : String) (f : Bid → Bid) : Store :=
  { s with bids := s.bids.map (fun b => if b.id == id then f b else b) }

/-- The payload `jwt.sign({ userId, role }, ...)` embeds (signing itself is
the external primitive). -/
structure Token where
  userId : String
  role : Role
deriving DecidableEq

/-- `generateToken(userId, role)` from the auth controller. -/
def generateToken (userId : String) (role : Role) : Token :=
  ⟨userId, role⟩

/-- The public user record the auth controller returns (password excluded). -/
structure PublicUser where
  id : String
  name : String
  email : String
  role : Role
deriving DecidableEq

/-- Drop the password hash for the response. -/
def User.toPublic (u : User) : PublicUser :=
  ⟨u.id, u.name, u.email, u.role⟩

/-- Response of `register` and `login`: a token plus the public record. -/
structure AuthResponse where
  token : Token
  user : PublicUser
deriving DecidableEq

/-- `role.toUpperCase()` of the JavaScript source: `String.toUpper`,
written over the character list so that concrete instances evaluate. -/
def jsToUpper (s : String) : String :=
  ⟨s.data.map Char.toUpper⟩

/-- `['BUYER', 'SELLER'].includes(role.toUpperCase())`, and the uppercased
value that is stored on success. -/
def parseRole (r : String) : Option Role :=
  if jsToUpper r == "BUYER" then some .BUYER
  else if jsToUpper r == "SELLER" then some .SELLER
  else none

/-- `register` from the auth controller.  `hash` stands for the external
bcrypt salt-and-hash primitive; `newId` is the id the database generates
for the created row. -/
def register (hash : String → String) (s : Store) (newId : String)
    (name email password role : Option String) :
    Except ApiError (Store × AuthResponse) :=
  if !strTruthy name || !strTruthy email || !strTruthy password || !strTruthy role then
    .error ⟨400, "All fields are required"⟩
  else
    match parseRole (role.getD "") with
    | none => .error ⟨400, "Role must be either BUYER or SELLER"⟩
    | some r =>
      match findUserByEmail s (email.getD "") with
      | some _ => .error ⟨409, "User with this email already exists"⟩
      | none =>
        let u : User := ⟨newId, email.getD "", hash (password.getD ""), name.getD "", r⟩
        .ok ({ s with users := s.users ++ [u] },
             ⟨generateToken u.id u.role, u.toPublic⟩)

/-- `login` from the auth controller.  `bcompare` stands for the external
`bcrypt.compare` primitive. -/
def login (bcompare : String → String → Bool) (s : Store)
    (email password : Option String) :
    Except ApiError (Store × AuthResponse) :=
  if !strTruthy email || !strTruthy password then
    .error ⟨400, "Email and password are required"⟩
  else
    match findUserByEmail s (email.getD "") with
    | none => .error ⟨401, "Invalid credentials"⟩
    | some u =>
      if !bcompare (password.getD "") u.password then
        .error ⟨401, "Invalid credentials"⟩
      else
        .ok (s, ⟨generateToken u.id u.role, u.toPublic⟩)

/-- The `budget` object `{ min, max }` of a project request body. -/
structure Budget where
  min : Int
  max : Int
deriving DecidableEq

/-- `createProject` from the project controller.  `newId` is the id the
database generates for the created row. -/
def createProject (s : Store) (user : AuthUser) (newId : String)
    (title description : Option String) (budget : Option Budget)
    (deadline : Option String) :
    Except ApiError (Store × Project) :=
  if user.role != .BUYER then
    .error ⟨403, "Only buyers can create projects"⟩
  else if !strTruthy title || !strTruthy description || !budget.isSome ||
      !strTruthy deadline then
    .error ⟨400, "All fields are required"⟩
  else
    let b := budget.getD ⟨0, 0⟩
    let p : Project := ⟨newId, title.getD "", description.getD "", b.min, b.max,
      deadline.getD "", .PENDING, user.id, none⟩
    .ok ({ s with projects := s.projects ++ [p] }, p)

/-- The request body of a project update (all fields optional). -/
structure ProjectUpdate where
  title : Option String
  description : Option String
  budget : Option Budget
  deadline : Option String
deriving DecidableEq

/-- The `updateData` object `updateProject` builds from the truthy fields of
the request body. -/
def applyProjectUpdate (req : ProjectUpdate) (p : Project) : Project :=
  let p := if strTruthy req.title then { p with title := req.title.getD "" } else p
  let p := if strTruthy req.description then
    { p with description := req.description.getD "" } else p
  let p := match req.budget with
    | some b => { p with budgetMin := b.min, budgetMax := b.max }
    | none => p
  if strTruthy req.deadline then { p with deadline := req.deadline.getD "" } else p

/-- `updateProject` from the project controller. -/
def updateProject (s : Store) (user : AuthUser) (projectId : String)
    (req : ProjectUpdate) : Except ApiError (Store × Project) :=
  match findProject s projectId with
  | none => .error ⟨404, "Project not found"⟩
  | some project =>
    if project.buyerId != user.id then
      .error ⟨403, "You are not authorized to update this project"⟩
    else if project.status != .PENDING then
      .error ⟨400, "Cannot update a project that is already in progress or completed"⟩
    else
      .ok (updateProjectRow s projectId (applyProjectUpdate req),
           applyProjectUpdate req project)

/-- `deleteProject` from the project controller; per the source comment and
the schema, deleting the project also removes its bids and files. -/
def deleteProject (s : Store) (user : AuthUser) (projectId : String) :
    Except ApiError (Store × String) :=
  match findProject s projectId with
  | none => .error ⟨404, "Project not found"⟩
  | some project =>
    if project.buyerId != user.id then
      .error ⟨403, "You are not authorized to delete this project"⟩
    else if project.status != .PENDING then
      .error ⟨400, "Cannot delete a project that is already in progress or completed"⟩
    else
      .ok ({ s with
              projects := s.projects.filter (fun p => p.id != projectId),
              bids := s.bids.filter (fun b => b.projectId != projectId),
              files := s.files.filter (fun f => f.projectId != projectId) },
           "Project deleted successfully")

/-- Response of `getProjectBids`: the bid rows plus the `email: isOwner`
flag of the seller `select`, which decides whether seller emails are
included in the payload. -/
structure BidListResponse where
  bids : List Bid
  includeSellerEmail : Bool
deriving DecidableEq

/-- `getProjectBids` from the project controller. -/
def getProjectBids (s : Store) (user : AuthUser) (projectId : String) :
    Except ApiError BidListResponse :=
  match findProject s projectId with
  | none => .error ⟨404, "Project not found"⟩
  | some project =>
    let isOwner := project.buyerId == user.id
    if !isOwner && user.role != .SELLER then
      .error ⟨403, "You are not authorized to view these bids"⟩
    else if !isOwner && user.role == .SELLER &&
        !(findBidByProjectSeller s projectId user.id).isSome then
      .error ⟨403, "You are not authorized to view these bids"⟩
    else
      .ok ⟨s.bids.filter (fun b => b.projectId == projectId), isOwner⟩

/-- `selectBid` from the project controller: the three writes (project to
IN_PROGRESS with the seller set, chosen bid to ACCEPTED, sibling bids to
REJECTED) in source order. -/
def selectBid (s : Store) (user : AuthUser) (projectId : String)
    (bidIdField sellerIdField : Option String) :
    Except ApiError (Store × Project) :=
  if !strTruthy bidIdField || !strTruthy sellerIdField then
    .error ⟨400, "Bid ID and Seller ID are required"⟩
  else
    let bidId := bidIdField.getD ""
    let sellerId := sellerIdField.getD ""
    match findProject s projectId with
    | none => .error ⟨404, "Project not found"⟩
    | some project =>
      if project.buyerId != user.id then
        .error ⟨403, "You are not authorized to select a bid for this project"⟩
      else if project.status != .PENDING then
        .error ⟨400, "Cannot select a bid for a project that is already in progress or completed"⟩
      else
        match s.bids.find? (fun b =>
            b.id == bidId && b.projectId == projectId && b.sellerId == sellerId) with
        | none => .error ⟨404, "Bid not found or does not match the project"⟩
        | some _ =>
          let s1 := updateProjectRow s projectId
            (fun p => { p with status := .IN_PROGRESS, sellerId := some sellerId })
          let s2 := updateBidRow s1 bidId (fun b => { b with status := .ACCEPTED })
          let s3 := { s2 with bids := s2.bids.map (fun b =>
            if b.projectId == projectId && b.id != bidId then
              { b with status := .REJECTED } else b) }
          .ok (s3, { project with status := .IN_PROGRESS, sellerId := some sellerId })

/-- `completeProject` from the project controller. -/
def completeProject (s : Store) (user : AuthUser) (projectId : String) :
    Except ApiError (Store × Project) :=
  match findProject s projectId with
  | none => .error ⟨404, "Project not found"⟩
  | some project =>
    if project.buyerId != user.id then
      .error ⟨403, "Only the project owner can mark it as completed"⟩
    else if project.status != .IN_PROGRESS then
      .error ⟨400, "Only projects that are in progress can be marked as completed"⟩
    else
      .ok (updateProjectRow s projectId (fun p => { p with status := .COMPLETED }),
           { project with status := .COMPLETED })

/-- One uploaded multipart file as multer hands it to the controller. -/
structure UploadFile where
  originalname : String
  path : String
  size : Int
  mimetype : String
deriving DecidableEq

/-- `uploadProjectFiles` from the project controller.  `newIds` are the ids
the database generates for the created rows, one per file. -/
def uploadProjectFiles (s : Store) (user : AuthUser) (projectId : String)
    (newIds : List String) (files : List UploadFile) :
    Except ApiError (Store × List FileRec) :=
  match findProject s projectId with
  | none => .error ⟨404, "Project not found"⟩
  | some project =>
    let isAuthorized := user.id == project.buyerId ||
      (project.sellerId.isSome && some user.id == project.sellerId)
    if !isAuthorized then
      .error ⟨403, "You are not authorized to upload files to this project"⟩
    else if files.isEmpty then
      .error ⟨400, "No files uploaded"⟩
    else
      let recs := (newIds.zip files).map (fun v =>
        (⟨v.1, v.2.originalname, v.2.path, v.2.size, v.2.mimetype, projectId⟩ : FileRec))
      .ok ({ s with files := s.files ++ recs }, recs)

/-- `createBid` from the bid controller.  `newId` is the id the database
generates for the created row. -/
def createBid (s : Store) (user : AuthUser) (newId : String)
    (projectId : Option String) (amount deliveryTime : Option Int)
    (message : Option String) : Except ApiError (Store × Bid) :=
  if user.role != .SELLER then
    .error ⟨403, "Only sellers can create bids"⟩
  else if !strTruthy projectId || !numTruthy amount || !numTruthy deliveryTime ||
      !strTruthy message then
    .error ⟨400, "All fields are required"⟩
  else
    let pid := projectId.getD ""
    match findProject s pid with
    | none => .error ⟨404, "Project not found"⟩
    | some project =>
      if project.status != .PENDING then
        .error ⟨400, "Cannot bid on a project that is already in progress or completed"⟩
      else if (findBidByProjectSeller s pid user.id).isSome then
        .error ⟨400, "You have already placed a bid on this project"⟩
      else
        let b : Bid := ⟨newId, amount.getD 0, deliveryTime.getD 0, message.getD "",
          .PENDING, pid, user.id⟩
        .ok ({ s with bids := s.bids ++ [b] }, b)

/-- The request body of a bid update (all fields optional). -/
structure BidUpdate where
  amount : Option Int
  deliveryTime : Option Int
  message : Option String
deriving DecidableEq

/-- The `updateData` object `updateBid` builds from the truthy fields of the
request body. -/
def applyBidUpdate (req : BidUpdate) (b : Bid) : Bid :=
  let b := if numTruthy req.amount then { b with amount := req.amount.getD 0 } else b
  let b := if numTruthy req.deliveryTime then
    { b with deliveryTime := req.deliveryTime.getD 0 } else b
  if strTruthy req.message then { b with message := req.message.getD "" } else b

/-- `updateBid` from the bid controller.  The bid row is fetched together
with its project (`include`); a bid whose project row is absent would make
the handler dereference null, surfacing as the error handler's 500 — the
schema's foreign key rules that state out. -/
def updateBid (s : Store) (user : AuthUser) (bidId : String) (req : BidUpdate) :
    Except ApiError (Store × Bid) :=
  match findBid s bidId with
  | none => .error ⟨404, "Bid not found"⟩
  | some bid =>
    if bid.sellerId != user.id then
      .error ⟨403, "You are not authorized to update this bid"⟩
    else
      match findProject s bid.projectId with
      | none => .error ⟨500, "Internal Server Error"⟩
      | some project =>
        if bid.status != .PENDING || project.status != .PENDING then
          .error ⟨400, "Cannot update a bid that has already been accepted or rejected"⟩
        else
          .ok (updateBidRow s bidId (applyBidUpdate req), applyBidUpdate req bid)

/-- `deleteBid` from the bid controller (same project fetch as `updateBid`). -/
def deleteBid (s : Store) (user : AuthUser) (bidId : String) :
    Except ApiError (Store × String) :=
  match findBid s bidId with
  | none => .error ⟨404, "Bid not found"⟩
  | some bid =>
    if bid.sellerId != user.id then
      .error ⟨403, "You are not authorized to delete this bid"⟩
    else
      match findProject s bid.projectId with
      | none => .error ⟨500, "Internal Server Error"⟩
      | some project =>
        if bid.status != .PENDING || project.status != .PENDING then
          .error ⟨400, "Cannot delete a bid that has already been accepted or rejected"⟩
        else
          .ok ({ s with bids := s.bids.filter (fun b => b.id != bidId) },
               "Bid deleted successfully")

/-- One mutating request of the system, with the external primitives and
database-generated ids it needs carried as data. -/
inductive Op where
  | register (hash : String → String) (newId : String)
      (name email password role : Option String)
  | login (bcompare : String → String → Bool) (email password : Option String)
  | createProject (user : AuthUser) (newId : String)
      (title description : Option String) (budget : Option Budget)
      (deadline : Option String)
  | updateProject (user : AuthUser) (projectId : String) (req : ProjectUpdate)
  | deleteProject (user : AuthUser) (projectId : String)
  | selectBid (user : AuthUser) (projectId : String)
      (bidIdField sellerIdField : Option String)
  | completeProject (user : AuthUser) (projectId : String)
  | createBid (user : AuthUser) (newId : String) (projectId : Option String)
      (amount deliveryTime : Option Int) (message : Option String)
  | updateBid (user : AuthUser) (bidId : String) (req : BidUpdate)
  | deleteBid (user : AuthUser) (bidId : String)
  | uploadProjectFiles (user : AuthUser) (projectId : String)
      (newIds : List String) (files : List UploadFile)

/-- Run one operation, keeping only the store it leaves behind on success. -/
def runOp (s : Store) : Op → Except ApiError Store
  | .register h nid n e pw r => (register h s nid n e pw r).map Prod.fst
  | .login bc e pw => (login bc s e pw).map Prod.fst
  | .createProject u nid t d b dl => (createProject s u nid t d b dl).map Prod.fst
  | .updateProject u pid req => (updateProject s u pid req).map Prod.fst
  | .deleteProject u pid => (deleteProject s u pid).map Prod.fst
  | .selectBid u pid b se => (selectBid s u pid b se).map Prod.fst
  | .completeProject u pid => (completeProject s u pid).map Prod.fst
  | .createBid u nid pid a d m => (createBid s u nid pid a d m).map Prod.fst
  | .updateBid u bid req => (updateBid s u bid req).map Prod.fst
  | .deleteBid u bid => (deleteBid s u bid).map Prod.fst
  | .uploadProjectFiles u pid ids fs => (uploadProjectFiles s u pid ids fs).map Prod.fst

/-- The store after an operation: the successor store on success, the
entry store when the handler threw. -/
def applyOp (s : Store) (op : Op) : Store :=
  match runOp s op with
  | .ok s2 => s2
  | .error _ => s

/-! ### Concrete fixtures used by the witnesses -/

/-- A concrete buyer row. -/
def buyerRow : User := ⟨"u1", "buyer@x.com", "h1", "Bea", .BUYER⟩

/-- A concrete seller row. -/
def sellerRow : User := ⟨"u2", "seller@x.com", "h2", "Sam", .SELLER⟩

/-- A second concrete seller row. -/
def sellerRow2 : User := ⟨"u3", "seller2@x.com", "h3", "Sol", .SELLER⟩

/-- The buyer as the middleware attaches it to a request. -/
def buyerAuth : AuthUser := ⟨"u1", "buyer@x.com", "Bea", .BUYER⟩

/-- The first seller as the middleware attaches it to a request. -/
def sellerAuth : AuthUser := ⟨"u2", "seller@x.com", "Sam", .SELLER⟩

/-- The second seller as the middleware attaches it to a request. -/
def sellerAuth2 : AuthUser := ⟨"u3", "seller2@x.com", "Sol", .SELLER⟩

/-- A concrete pending project owned by the buyer. -/
def pendingProject : Project :=
  ⟨"p1", "Site", "Build a site", 100, 200, "2026-01-01", .PENDING, "u1", none⟩

/-- A concrete completed project owned by the buyer and assigned to u2. -/
def completedProject : Project :=
  ⟨"p2", "Logo", "Design a logo", 50, 80, "2026-02-01", .COMPLETED, "u1", some "u2"⟩

/-- A concrete pending bid by u2 on p1. -/
def bidRow1 : Bid := ⟨"b1", 150, 3, "Three days", .PENDING, "p1", "u2"⟩

/-- A concrete pending bid by u3 on p1. -/
def bidRow2 : Bid := ⟨"b2", 180, 5, "Five days", .PENDING, "p1", "u3"⟩

/-- A store holding the three users, both projects and both bids. -/
def store1 : Store :=
  ⟨[buyerRow, sellerRow, sellerRow2], [pendingProject, completedProject],
   [bidRow1, bidRow2], []⟩

/-! ### Basic facts about the embedding -/

/-- A present, non-empty string field is truthy. -/
theorem strTruthy_some_true {x : String} (hx : x ≠ "") : strTruthy (some x) = true := by
  have hempty : x.isEmpty = false := by
    simp only [Bool.eq_false_iff, ne_eq, String.isEmpty_iff]
    exact hx
  simp [strTruthy, hempty]

/-- A present, non-zero numeric field is truthy. -/
theorem numTruthy_some_true {n : Int} (hn : n ≠ 0) : numTruthy (some n) = true := by
  simp [numTruthy, hn]


/-! ### Claim theorems -/

/-- C5: a login that fails because the email is unknown and a login that
fails because the stored hash does not match return the same UNAUTHORIZED
result, the generic 401 "Invalid credentials" — the response does not
reveal whether a user with that email exists. -/
theorem C5_login_generic_unauthorized (bcompare : String → String → Bool)
    (s : Store) (e pw : String) (he : e ≠ "") (hpw : pw ≠ "") :
    (findUserByEmail s e = none →
      login bcompare s (some e) (some pw) =
        .error ⟨401, "Invalid credentials"⟩) ∧
    (∀ u, findUserByEmail s e = some u → bcompare pw u.password = false →
      login bcompare s (some e) (some pw) =
        .error ⟨401, "Invalid credentials"⟩) := by
  constructor
  · intro h
    simp [login, strTruthy_some_true he, strTruthy_some_true hpw, h]
  · intro u hu hcmp
    simp [login, strTruthy_some_true he, strTruthy_some_true hpw, hu, hcmp]

/-- C5 witness: both failure modes at a concrete store produce the
identical 401 response. -/
theorem C5_login_generic_unauthorized_witness :
    login (fun _ _ => false) store1 (some "nobody@x.com") (some "pw") =
      .error ⟨401, "Invalid credentials"⟩ ∧
    login (fun _ _ => false) store1 (some "buyer@x.com") (some "pw") =
      .error ⟨401, "Invalid credentials"⟩ := by
  refine ⟨(C5_login_generic_unauthorized (fun _ _ => false) store1 "nobody@x.com" "pw"
      (by decide) (by decide)).1 (by decide),
    (C5_login_generic_unauthorized (fun _ _ => false) store1 "buyer@x.com" "pw"
      (by decide) (by decide)).2 buyerRow (by decide) rfl⟩

/-- C4 counterexample: "buyer" is not in {BUYER, SELLER}, yet register with
role "buyer" does not fail VALIDATION — it creates the user, because the
source uppercases the role before the membership test. -/
theorem C4_role_case_counterexample :
    ¬("buyer" = "BUYER" ∨ "buyer" = "SELLER") ∧
    register (fun p => p) ⟨[], [], [], []⟩ "u9" (some "Al") (some "a@b.c")
      (some "pw") (some "buyer") =
    .ok (⟨[⟨"u9", "a@b.c", "pw", "Al", .BUYER⟩], [], [], []⟩,
      ⟨⟨"u9", .BUYER⟩, ⟨"u9", "Al", "a@b.c", .BUYER⟩⟩) := by
  exact ⟨by decide, by decide⟩

/-- C4 (amended): if any of name, email, password, role is absent (or
empty, which JavaScript treats the same), register fails VALIDATION with
"All fields are required"; if all four are present but the uppercased role
is neither BUYER nor SELLER, register fails VALIDATION with "Role must be
either BUYER or SELLER"; in both cases no user is created. -/
theorem C4_register_validation (hash : String → String) (s : Store)
    (newId : String) (name email password role : Option String) :
    ((strTruthy name = false ∨ strTruthy email = false ∨
        strTruthy password = false ∨ strTruthy role = false) →
      register hash s newId name email password role =
        .error ⟨400, "All fields are required"⟩ ∧
      applyOp s (.register hash newId name email password role) = s) ∧
    (strTruthy name = true → strTruthy email = true → strTruthy password = true →
      strTruthy role = true → parseRole (role.getD "") = none →
      register hash s newId name email password role =
        .error ⟨400, "Role must be either BUYER or SELLER"⟩ ∧
      applyOp s (.register hash newId name email password role) = s) := by
  constructor
  · intro h
    have hr : register hash s newId name email password role =
        .error ⟨400, "All fields are required"⟩ := by
      rcases h with h | h | h | h <;> simp [register, h]
    exact ⟨hr, by simp [applyOp, runOp, hr, Except.map]⟩
  · intro h1 h2 h3 h4 hrole
    have hr : register hash s newId name email password role =
        .error ⟨400, "Role must be either BUYER or SELLER"⟩ := by
      simp [register, h1, h2, h3, h4, hrole]
    exact ⟨hr, by simp [applyOp, runOp, hr, Except.map]⟩

/-- C4 witness: a register call with the password missing fails VALIDATION
and leaves the store untouched, and one with role "boss" fails the role
VALIDATION and leaves the store untouched. -/
theorem C4_register_validation_witness :
    (register (fun p => p) store1 "u9" (some "Al") (some "a@b.c") none (some "BUYER") =
        .error ⟨400, "All fields are required"⟩ ∧
      applyOp store1 (.register (fun p => p) "u9" (some "Al") (some "a@b.c")
        none (some "BUYER")) = store1) ∧
    (register (fun p => p) store1 "u9" (some "Al") (some "a@b.c") (some "pw")
        (some "boss") =
        .error ⟨400, "Role must be either BUYER or SELLER"⟩ ∧
      applyOp store1 (.register (fun p => p) "u9" (some "Al") (some "a@b.c")
        (some "pw") (some "boss")) = store1) := by
  refine ⟨(C4_register_validation (fun p => p) store1 "u9" (some "Al") (some "a@b.c")
      none (some "BUYER")).1 (by decide),
    (C4_register_validation (fun p => p) store1 "u9" (some "Al") (some "a@b.c")
      (some "pw") (some "boss")).2 (by decide) (by decide) (by decide) (by decide)
      (by decide)⟩

/-- C3: a registration attempt whose fields pass validation fails CONFLICT
(409, "User with this email already exists") when a user with that email is
already in the store, and creates no user; consequently, when a first
registration succeeds, repeating it always yields that CONFLICT. -/
theorem C3_register_email_conflict (hash : String → String) (s : Store)
    (newId newId2 : String) (n e pw ro : String) (r : Role)
    (hn : n ≠ "") (he : e ≠ "") (hpw : pw ≠ "") (hro : ro ≠ "")
    (hrole : parseRole ro = some r) :
    ((∃ u ∈ s.users, u.email = e) →
      register hash s newId (some n) (some e) (some pw) (some ro) =
        .error ⟨409, "User with this email already exists"⟩ ∧
      applyOp s (.register hash newId (some n) (some e) (some pw) (some ro)) = s) ∧
    (∀ s2 resp,
      register hash s newId (some n) (some e) (some pw) (some ro) = .ok (s2, resp) →
      register hash s2 newId2 (some n) (some e) (some pw) (some ro) =
        .error ⟨409, "User with this email already exists"⟩) := by
  constructor
  · intro hex
    have hfound : (findUserByEmail s e).isSome = true := by
      unfold findUserByEmail
      rw [List.find?_isSome]
      obtain ⟨u, hu, hue⟩ := hex
      exact ⟨u, hu, by simp [hue]⟩
    obtain ⟨u, hu⟩ := Option.isSome_iff_exists.mp hfound
    have hr : register hash s newId (some n) (some e) (some pw) (some ro) =
        .error ⟨409, "User with this email already exists"⟩ := by
      simp [register, strTruthy_some_true hn, strTruthy_some_true he,
        strTruthy_some_true hpw, strTruthy_some_true hro, hrole, hu]
    exact ⟨hr, by simp [applyOp, runOp, hr, Except.map]⟩
  · intro s2 resp hok
    rcases hfind : findUserByEmail s e with _ | u
    · have hcomp : register hash s newId (some n) (some e) (some pw) (some ro) =
          .ok ({ s with users := s.users ++ [⟨newId, e, hash pw, n, r⟩] },
               ⟨generateToken newId r, User.toPublic ⟨newId, e, hash pw, n, r⟩⟩) := by
        simp [register, strTruthy_some_true hn, strTruthy_some_true he,
          strTruthy_some_true hpw, strTruthy_some_true hro, hrole, hfind]
      rw [hcomp] at hok
      injection hok with hok2
      cases hok2
      have hmail : findUserByEmail
          { s with users := s.users ++ [⟨newId, e, hash pw, n, r⟩] } e =
          some ⟨newId, e, hash pw, n, r⟩ := by
        unfold findUserByEmail at hfind ⊢
        simp only [List.find?_append, hfind, Option.none_or]
        simp
      simp [register, strTruthy_some_true hn, strTruthy_some_true he,
        strTruthy_some_true hpw, strTruthy_some_true hro, hrole, hmail]
    · have hcomp : register hash s newId (some n) (some e) (some pw) (some ro) =
          .error ⟨409, "User with this email already exists"⟩ := by
        simp [register, strTruthy_some_true hn, strTruthy_some_true he,
          strTruthy_some_true hpw, strTruthy_some_true hro, hrole, hfind]
      rw [hcomp] at hok
      cases hok

/-- C3 witness: registering with the email the buyer row already holds
fails 409 and leaves the store untouched. -/
theorem C3_register_email_conflict_witness :
    register (fun p => p) store1 "u9" (some "Al") (some "buyer@x.com") (some "pw")
        (some "BUYER") = .error ⟨409, "User with this email already exists"⟩ ∧
    applyOp store1 (.register (fun p => p) "u9" (some "Al") (some "buyer@x.com")
        (some "pw") (some "BUYER")) = store1 :=
  (C3_register_email_conflict (fun p => p) store1 "u9" "u10" "Al" "buyer@x.com"
    "pw" "BUYER" .BUYER (by decide) (by decide) (by decide) (by decide)
    (by decide)).1 ⟨buyerRow, by decide, rfl⟩

/-- Field-by-field description of the partial update `updateProject`
builds: truthy fields take the request's value, the rest keep the row's. -/
theorem applyProjectUpdate_spec (req : ProjectUpdate) (p : Project) :
    applyProjectUpdate req p =
      ⟨p.id,
       (if strTruthy req.title then req.title.getD "" else p.title),
       (if strTruthy req.description then req.description.getD "" else p.description),
       (match req.budget with | some b => b.min | none => p.budgetMin),
       (match req.budget with | some b => b.max | none => p.budgetMax),
       (if strTruthy req.deadline then req.deadline.getD "" else p.deadline),
       p.status, p.buyerId, p.sellerId⟩ := by
  unfold applyProjectUpdate
  rcases req.budget with _ | b <;>
    cases ht : strTruthy req.title <;>
    cases hd : strTruthy req.description <;>
    cases hdl : strTruthy req.deadline <;>
    simp [ht, hd, hdl]

/-- `find?` on an id commutes with a map that rewrites only a given id and
preserves every id. -/
theorem find?_id_map (l : List Project) (g : Project → Project)
    (hg : ∀ q, (g q).id = q.id) (k : String) :
    (l.map g).find? (fun q => q.id == k) =
      (l.find? (fun q => q.id == k)).map g := by
  rw [List.find?_map]
  have hpred : ((fun q : Project => q.id == k) ∘ g) = (fun q => q.id == k) := by
    funext q
    simp [Function.comp, hg]
  rw [hpred]

/-- `findProject` after a row update: the looked-up row goes through the
rewrite exactly when its id matches. -/
theorem findProject_updateProjectRow (s : Store) (pid k : String)
    (f : Project → Project) (hf : ∀ p, (f p).id = p.id) :
    findProject (updateProjectRow s pid f) k =
      (findProject s k).map (fun p => if p.id == pid then f p else p) := by
  unfold findProject updateProjectRow
  exact find?_id_map _ _ (fun q => by by_cases h : q.id == pid <;> simp [h, hf]) _

/-- `applyProjectUpdate` preserves the row id. -/
theorem applyProjectUpdate_id (req : ProjectUpdate) (p : Project) :
    (applyProjectUpdate req p).id = p.id := by
  rw [applyProjectUpdate_spec]

/-- C9: for a PENDING project, an update by its owning buyer changes only
the provided fields — absent fields, status, buyerId and sellerId keep
their previous values — and if the project is not PENDING the update fails
PRECONDITION (400) and changes nothing. -/
theorem C9_updateProject_partial_frame (s : Store) (user : AuthUser)
    (pid : String) (req : ProjectUpdate) (project : Project)
    (hfind : findProject s pid = some project)
    (howner : project.buyerId = user.id) :
    (project.status = .PENDING →
      ∃ s2 p2, updateProject s user pid req = .ok (s2, p2) ∧
        p2.title = (if strTruthy req.title then req.title.getD "" else project.title) ∧
        p2.description =
          (if strTruthy req.description then req.description.getD ""
           else project.description) ∧
        p2.budgetMin =
          (match req.budget with | some b => b.min | none => project.budgetMin) ∧
        p2.budgetMax =
          (match req.budget with | some b => b.max | none => project.budgetMax) ∧
        p2.deadline =
          (if strTruthy req.deadline then req.deadline.getD "" else project.deadline) ∧
        p2.id = project.id ∧ p2.status = project.status ∧
        p2.buyerId = project.buyerId ∧ p2.sellerId = project.sellerId ∧
        findProject s2 pid = some p2 ∧
        s2.users = s.users ∧ s2.bids = s.bids ∧ s2.files = s.files) ∧
    (project.status ≠ .PENDING →
      updateProject s user pid req =
        .error ⟨400, "Cannot update a project that is already in progress or completed"⟩ ∧
      applyOp s (.updateProject user pid req) = s) := by
  constructor
  · intro hstatus
    have hok : updateProject s user pid req =
        .ok (updateProjectRow s pid (applyProjectUpdate req),
             applyProjectUpdate req project) := by
      simp [updateProject, hfind, howner, hstatus]
    refine ⟨_, _, hok, ?_⟩
    rw [applyProjectUpdate_spec]
    refine ⟨rfl, rfl, rfl, rfl, rfl, rfl, rfl, rfl, rfl, ?_, rfl, rfl, rfl⟩
    rw [findProject_updateProjectRow s pid pid _ (applyProjectUpdate_id req), hfind]
    have hid : project.id = pid := by
      have := List.find?_some hfind
      simpa using this
    simp [hid, applyProjectUpdate_spec]
  · intro hstatus
    have herr : updateProject s user pid req =
        .error ⟨400, "Cannot update a project that is already in progress or completed"⟩ := by
      simp [updateProject, hfind, howner, hstatus]
    exact ⟨herr, by simp [applyOp, runOp, herr, Except.map]⟩

/-- C9 witness: updating only the title of the concrete pending project
keeps every other field, and updating the completed project fails 400. -/
theorem C9_updateProject_partial_frame_witness :
    (∃ s2 p2, updateProject store1 buyerAuth "p1" ⟨some "New", none, none, none⟩ =
        .ok (s2, p2) ∧
      p2.title = (if strTruthy (some "New") then (some "New").getD "" else pendingProject.title) ∧
      p2.description = (if strTruthy (none : Option String) then "" else pendingProject.description) ∧
      p2.budgetMin = pendingProject.budgetMin ∧
      p2.budgetMax = pendingProject.budgetMax ∧
      p2.deadline = (if strTruthy (none : Option String) then "" else pendingProject.deadline) ∧
      p2.id = pendingProject.id ∧ p2.status = pendingProject.status ∧
      p2.buyerId = pendingProject.buyerId ∧ p2.sellerId = pendingProject.sellerId ∧
      findProject s2 "p1" = some p2 ∧
      s2.users = store1.users ∧ s2.bids = store1.bids ∧ s2.files = store1.files) ∧
    (updateProject store1 buyerAuth "p2" ⟨some "New", none, none, none⟩ =
        .error ⟨400, "Cannot update a project that is already in progress or completed"⟩ ∧
      applyOp store1 (.updateProject buyerAuth "p2" ⟨some "New", none, none, none⟩) =
        store1) :=
  ⟨(C9_updateProject_partial_frame store1 buyerAuth "p1" ⟨some "New", none, none, none⟩
      pendingProject (by decide) (by decide)).1 (by decide),
   (C9_updateProject_partial_frame store1 buyerAuth "p2" ⟨some "New", none, none, none⟩
      completedProject (by decide) (by decide)).2 (by decide)⟩

/-- C8: listing a project's bids succeeds with seller emails included for
the owning buyer, succeeds with seller emails hidden for a seller who holds
a bid on the project, and fails 403 for a seller who neither owns the
project nor has bid on it. -/
theorem C8_getProjectBids_visibility (s : Store) (user : AuthUser)
    (pid : String) (project : Project)
    (hfind : findProject s pid = some project) :
    (project.buyerId = user.id →
      getProjectBids s user pid =
        .ok ⟨s.bids.filter (fun b => b.projectId == pid), true⟩) ∧
    (project.buyerId ≠ user.id → user.role = .SELLER →
      (findBidByProjectSeller s pid user.id).isSome = true →
      getProjectBids s user pid =
        .ok ⟨s.bids.filter (fun b => b.projectId == pid), false⟩) ∧
    (project.buyerId ≠ user.id → user.role = .SELLER →
      findBidByProjectSeller s pid user.id = none →
      getProjectBids s user pid =
        .error ⟨403, "You are not authorized to view these bids"⟩) := by
  refine ⟨?_, ?_, ?_⟩
  · intro howner
    simp [getProjectBids, hfind, howner]
  · intro howner hrole hbid
    simp [getProjectBids, hfind, howner, hrole, hbid]
  · intro howner hrole hbid
    simp [getProjectBids, hfind, howner, hrole, hbid]

/-- C8 witness: on the concrete store, the owning buyer sees the bids with
emails, a seller holding a bid sees them without emails, and a fresh seller
gets 403. -/
theorem C8_getProjectBids_visibility_witness :
    getProjectBids store1 buyerAuth "p1" = .ok ⟨[bidRow1, bidRow2], true⟩ ∧
    getProjectBids store1 sellerAuth "p1" = .ok ⟨[bidRow1, bidRow2], false⟩ ∧
    getProjectBids store1 ⟨"u7", "s7@x.com", "Sev", .SELLER⟩ "p1" =
      .error ⟨403, "You are not authorized to view these bids"⟩ := by
  refine ⟨?_, ?_, ?_⟩
  · have h := (C8_getProjectBids_visibility store1 buyerAuth "p1" pendingProject
      (by decide)).1 (by decide)
    rw [h]
    decide
  · have h := (C8_getProjectBids_visibility store1 sellerAuth "p1" pendingProject
      (by decide)).2.1 (by decide) (by decide) (by decide)
    rw [h]
    decide
  · exact (C8_getProjectBids_visibility store1 ⟨"u7", "s7@x.com", "Sev", .SELLER⟩
      "p1" pendingProject (by decide)).2.2 (by decide) (by decide) (by decide)

/-- C7: update and delete on a bid by its owning seller succeed only when
the bid and its project are both still PENDING; once either has left
PENDING both operations fail PRECONDITION (400) and change nothing. -/
theorem C7_bid_mutation_requires_pending (s : Store) (user : AuthUser)
    (bidId : String) (req : BidUpdate) (bid : Bid) (project : Project)
    (hfind : findBid s bidId = some bid)
    (howner : bid.sellerId = user.id)
    (hproj : findProject s bid.projectId = some project) :
    (∀ s2 b2, updateBid s user bidId req = .ok (s2, b2) →
      bid.status = .PENDING ∧ project.status = .PENDING) ∧
    (∀ s2 m2, deleteBid s user bidId = .ok (s2, m2) →
      bid.status = .PENDING ∧ project.status = .PENDING) ∧
    ((bid.status ≠ .PENDING ∨ project.status ≠ .PENDING) →
      (updateBid s user bidId req =
          .error ⟨400, "Cannot update a bid that has already been accepted or rejected"⟩ ∧
        applyOp s (.updateBid user bidId req) = s) ∧
      (deleteBid s user bidId =
          .error ⟨400, "Cannot delete a bid that has already been accepted or rejected"⟩ ∧
        applyOp s (.deleteBid user bidId) = s)) := by
  have herrU : (bid.status ≠ .PENDING ∨ project.status ≠ .PENDING) →
      updateBid s user bidId req =
        .error ⟨400, "Cannot update a bid that has already been accepted or rejected"⟩ := by
    intro h
    rcases h with h | h <;> simp [updateBid, hfind, howner, hproj, h]
  have herrD : (bid.status ≠ .PENDING ∨ project.status ≠ .PENDING) →
      deleteBid s user bidId =
        .error ⟨400, "Cannot delete a bid that has already been accepted or rejected"⟩ := by
    intro h
    rcases h with h | h <;> simp [deleteBid, hfind, howner, hproj, h]
  refine ⟨?_, ?_, ?_⟩
  · intro s2 b2 hok
    by_contra hcon
    rw [not_and_or] at hcon
    rw [herrU hcon] at hok
    cases hok
  · intro s2 m2 hok
    by_contra hcon
    rw [not_and_or] at hcon
    rw [herrD hcon] at hok
    cases hok
  · intro h
    exact ⟨⟨herrU h, by simp [applyOp, runOp, herrU h, Except.map]⟩,
           ⟨herrD h, by simp [applyOp, runOp, herrD h, Except.map]⟩⟩

/-- C7 witness: on a store whose project has left PENDING, the owning
seller's update and delete of the accepted bid both fail 400 and leave the
store untouched. -/
theorem C7_bid_mutation_requires_pending_witness :
    (updateBid
        ⟨[buyerRow, sellerRow],
         [⟨"p1", "Site", "Build", 100, 200, "d", .IN_PROGRESS, "u1", some "u2"⟩],
         [⟨"b1", 150, 3, "m", .ACCEPTED, "p1", "u2"⟩], []⟩
        sellerAuth "b1" ⟨some 9, none, none⟩ =
        .error ⟨400, "Cannot update a bid that has already been accepted or rejected"⟩ ∧
      applyOp
        ⟨[buyerRow, sellerRow],
         [⟨"p1", "Site", "Build", 100, 200, "d", .IN_PROGRESS, "u1", some "u2"⟩],
         [⟨"b1", 150, 3, "m", .ACCEPTED, "p1", "u2"⟩], []⟩
        (.updateBid sellerAuth "b1" ⟨some 9, none, none⟩) =
        ⟨[buyerRow, sellerRow],
         [⟨"p1", "Site", "Build", 100, 200, "d", .IN_PROGRESS, "u1", some "u2"⟩],
         [⟨"b1", 150, 3, "m", .ACCEPTED, "p1", "u2"⟩], []⟩) ∧
    (deleteBid
        ⟨[buyerRow, sellerRow],
         [⟨"p1", "Site", "Build", 100, 200, "d", .IN_PROGRESS, "u1", some "u2"⟩],
         [⟨"b1", 150, 3, "m", .ACCEPTED, "p1", "u2"⟩], []⟩
        sellerAuth "b1" =
        .error ⟨400, "Cannot delete a bid that has already been accepted or rejected"⟩ ∧
      applyOp
        ⟨[buyerRow, sellerRow],
         [⟨"p1", "Site", "Build", 100, 200, "d", .IN_PROGRESS, "u1", some "u2"⟩],
         [⟨"b1", 150, 3, "m", .ACCEPTED, "p1", "u2"⟩], []⟩
        (.deleteBid sellerAuth "b1") =
        ⟨[buyerRow, sellerRow],
         [⟨"p1", "Site", "Build", 100, 200, "d", .IN_PROGRESS, "u1", some "u2"⟩],
         [⟨"b1", 150, 3, "m", .ACCEPTED, "p1", "u2"⟩], []⟩) :=
  (C7_bid_mutation_requires_pending
    ⟨[buyerRow, sellerRow],
     [⟨"p1", "Site", "Build", 100, 200, "d", .IN_PROGRESS, "u1", some "u2"⟩],
     [⟨"b1", 150, 3, "m", .ACCEPTED, "p1", "u2"⟩], []⟩
    sellerAuth "b1" ⟨some 9, none, none⟩
    ⟨"b1", 150, 3, "m", .ACCEPTED, "p1", "u2"⟩
    ⟨"p1", "Site", "Build", 100, 200, "d", .IN_PROGRESS, "u1", some "u2"⟩
    (by decide) (by decide) (by decide)).2.2 (Or.inl (by decide))

/-- In a bid list with no duplicate ids, a predicate that is true on a
member and forces its id counts exactly one row. -/
theorem countP_one_of_unique_id {l : List Bid} (hl : (l.map Bid.id).Nodup)
    {b0 : Bid} (hmem : b0 ∈ l) {P : Bid → Bool} (hP0 : P b0 = true)
    (hP : ∀ x, P x = true → x.id = b0.id) :
    l.countP P = 1 := by
  induction l with
  | nil => cases hmem
  | cons a l ih =>
    rw [List.map_cons, List.nodup_cons] at hl
    rcases List.mem_cons.mp hmem with rfl | hmem2
    · rw [List.countP_cons_of_pos _ _ hP0]
      have hzero : l.countP P = 0 := by
        rw [List.countP_eq_zero]
        intro x hx hPx
        exact hl.1 (by rw [← hP x hPx]; exact List.mem_map_of_mem _ hx)
      rw [hzero]
    · have ha : ¬P a = true := by
        intro hPa
        exact hl.1 (by rw [hP a hPa]; exact List.mem_map_of_mem _ hmem2)
      rw [List.countP_cons_of_neg _ _ ha]
      exact ih hl.2 hmem2

/-- C1: when the project is PENDING, the caller is its buyer, and a bid
matches the (bidId, projectId, sellerId) triple, selectBid succeeds with
the project IN_PROGRESS and assigned to the chosen seller, the chosen bid
ACCEPTED, every other bid of the project REJECTED — so exactly one bid of
the project is ACCEPTED afterwards. -/
theorem C1_selectBid_outcome (s : Store) (user : AuthUser)
    (pid bidId sellerId : String) (project : Project) (bid : Bid)
    (hnodup : (s.bids.map Bid.id).Nodup)
    (hb : bidId ≠ "") (hsel : sellerId ≠ "")
    (hfind : findProject s pid = some project)
    (howner : project.buyerId = user.id)
    (hstatus : project.status = .PENDING)
    (hbid : s.bids.find? (fun b =>
      b.id == bidId && b.projectId == pid && b.sellerId == sellerId) = some bid) :
    ∃ s2 p2, selectBid s user pid (some bidId) (some sellerId) = .ok (s2, p2) ∧
      (∀ p ∈ s2.projects, p.id = pid →
        p.status = .IN_PROGRESS ∧ p.sellerId = some sellerId) ∧
      (∀ b ∈ s2.bids, b.projectId = pid →
        (b.id = bidId → b.status = .ACCEPTED) ∧
        (b.id ≠ bidId → b.status = .REJECTED)) ∧
      s2.bids.countP (fun b =>
        b.projectId == pid && b.status == BidStatus.ACCEPTED) = 1 := by
  have hok : selectBid s user pid (some bidId) (some sellerId) =
      .ok ({ s with
              projects := s.projects.map (fun p => if p.id == pid then
                { p with status := .IN_PROGRESS, sellerId := some sellerId } else p),
              bids := (s.bids.map (fun b => if b.id == bidId then
                  { b with status := .ACCEPTED } else b)).map (fun b =>
                if b.projectId == pid && b.id != bidId then
                  { b with status := .REJECTED } else b) },
            { project with status := .IN_PROGRESS, sellerId := some sellerId }) := by
    simp only [selectBid, strTruthy_some_true hb, strTruthy_some_true hsel,
      Bool.not_true, Bool.or_self, Bool.false_eq_true, if_false, hfind,
      Option.getD_some, howner, hstatus, hbid]
    simp [updateProjectRow, updateBidRow]
  -- facts about the matched bid
  have hbidP := List.find?_some hbid
  simp only [Bool.and_eq_true, beq_iff_eq] at hbidP
  obtain ⟨⟨hbid_id, hbid_pid⟩, hbid_sid⟩ := hbidP
  have hbidmem := List.mem_of_find?_eq_some hbid
  refine ⟨_, _, hok, ?_, ?_, ?_⟩
  · intro p hp hpid
    simp only [List.mem_map] at hp
    obtain ⟨q, hq, rfl⟩ := hp
    by_cases hqid : q.id == pid
    · simp [hqid]
    · simp only [hqid, if_false, Bool.false_eq_true] at hpid ⊢
      exact absurd (by simp [hpid]) hqid
  · intro b hb2 hbpid
    simp only [List.mem_map] at hb2
    obtain ⟨c, ⟨c0, hc0, rfl⟩, rfl⟩ := hb2
    by_cases hcid : c0.id = bidId
    · simp [hcid]
    · have hcid2 : (c0.id == bidId) = false := by simp [hcid]
      simp only [hcid2, Bool.false_eq_true, if_false] at hbpid ⊢
      have hcpid : (c0.projectId == pid) = true := by
        by_cases hp2 : (c0.projectId == pid && c0.id != bidId) = true <;>
          simp_all
      simp [hcpid, hcid]
  · rw [List.map_map, List.countP_map]
    have hpred : ∀ c : Bid,
        ((fun b => b.projectId == pid && b.status == BidStatus.ACCEPTED) ∘
          ((fun b => if b.projectId == pid && b.id != bidId then
              { b with status := .REJECTED } else b) ∘
           (fun b => if b.id == bidId then { b with status := .ACCEPTED } else b))) c =
        (c.projectId == pid && c.id == bidId) := by
      intro c
      by_cases hcid : c.id = bidId
      · by_cases hcpid : c.projectId = pid <;> simp [Function.comp, hcid, hcpid]
      · have h1 : (c.id == bidId) = false := by simp [hcid]
        by_cases hcpid : c.projectId = pid
        · simp [Function.comp, h1, hcpid, hcid]
        · have h2 : (c.projectId == pid) = false := by simp [hcpid]
          simp [Function.comp, h1, h2, hcid]
    rw [show (List.countP _ s.bids) = _ from congrArg (fun P => List.countP P s.bids)
      (funext hpred)]
    exact countP_one_of_unique_id hnodup hbidmem
      (by simp [hbid_pid, hbid_id])
      (fun x hx => by
        simp only [Bool.and_eq_true, beq_iff_eq] at hx
        rw [hx.2, hbid_id])

/-- C1 witness: selecting seller u2's bid b1 on the concrete pending
project yields the claimed post-state, with exactly one ACCEPTED bid. -/
theorem C1_selectBid_outcome_witness :
    ∃ s2 p2, selectBid store1 buyerAuth "p1" (some "b1") (some "u2") = .ok (s2, p2) ∧
      (∀ p ∈ s2.projects, p.id = "p1" →
        p.status = .IN_PROGRESS ∧ p.sellerId = some "u2") ∧
      (∀ b ∈ s2.bids, b.projectId = "p1" →
        (b.id = "b1" → b.status = .ACCEPTED) ∧
        (b.id ≠ "b1" → b.status = .REJECTED)) ∧
      s2.bids.countP (fun b =>
        b.projectId == "p1" && b.status == BidStatus.ACCEPTED) = 1 :=
  C1_selectBid_outcome store1 buyerAuth "p1" "b1" "u2" pendingProject bidRow1
    (by decide) (by decide) (by decide) (by decide) (by decide) (by decide)
    (by decide)

/-! ### Store shape of each operation on success -/

/-- A successful register only appends to the user table. -/
theorem register_ok_shape {hash : String → String} {s : Store} {newId : String}
    {n e pw r : Option String} {s2 : Store} {resp : AuthResponse}
    (h : register hash s newId n e pw r = .ok (s2, resp)) :
    s2.projects = s.projects ∧ s2.bids = s.bids := by
  unfold register at h
  split at h
  · exact absurd h (by simp)
  split at h
  · exact absurd h (by simp)
  split at h
  · exact absurd h (by simp)
  · injection h with hpair
    rw [Prod.mk.injEq] at hpair
    rw [← hpair.1]
    exact ⟨rfl, rfl⟩

/-- A successful login does not touch the store. -/
theorem login_ok_shape {bc : String → String → Bool} {s : Store}
    {e pw : Option String} {s2 : Store} {resp : AuthResponse}
    (h : login bc s e pw = .ok (s2, resp)) : s2 = s := by
  unfold login at h
  split at h
  · exact absurd h (by simp)
  split at h
  · exact absurd h (by simp)
  split at h
  · exact absurd h (by simp)
  · injection h with hpair
    rw [Prod.mk.injEq] at hpair
    rw [← hpair.1]

/-- A successful createProject appends the returned row to the project
table and leaves the bids alone. -/
theorem createProject_ok_shape {s : Store} {u : AuthUser} {newId : String}
    {t d : Option String} {b : Option Budget} {dl : Option String}
    {s2 : Store} {p : Project}
    (h : createProject s u newId t d b dl = .ok (s2, p)) :
    s2.projects = s.projects ++ [p] ∧ s2.bids = s.bids := by
  unfold createProject at h
  split at h
  · exact absurd h (by simp)
  split at h
  · exact absurd h (by simp)
  · injection h with hpair
    rw [Prod.mk.injEq] at hpair
    rw [← hpair.1, ← hpair.2]
    exact ⟨rfl, rfl⟩

/-- A successful updateProject rewrites the matching project rows through
the partial update and leaves the bids alone. -/
theorem updateProject_ok_shape {s : Store} {u : AuthUser} {pid : String}
    {req : ProjectUpdate} {s2 : Store} {p2 : Project}
    (h : updateProject s u pid req = .ok (s2, p2)) :
    s2.projects = s.projects.map (fun q =>
      if q.id == pid then applyProjectUpdate req q else q) ∧
    s2.bids = s.bids := by
  unfold updateProject at h
  split at h
  · exact absurd h (by simp)
  split at h
  · exact absurd h (by simp)
  split at h
  · exact absurd h (by simp)
  · injection h with hpair
    rw [Prod.mk.injEq] at hpair
    rw [← hpair.1]
    exact ⟨rfl, rfl⟩

/-- A successful deleteProject removes the project's rows and its bids. -/
theorem deleteProject_ok_shape {s : Store} {u : AuthUser} {pid : String}
    {s2 : Store} {m : String}
    (h : deleteProject s u pid = .ok (s2, m)) :
    s2.projects = s.projects.filter (fun q => q.id != pid) ∧
    s2.bids = s.bids.filter (fun b => b.projectId != pid) := by
  unfold deleteProject at h
  split at h
  · exact absurd h (by simp)
  split at h
  · exact absurd h (by simp)
  split at h
  · exact absurd h (by simp)
  · injection h with hpair
    rw [Prod.mk.injEq] at hpair
    rw [← hpair.1]
    exact ⟨rfl, rfl⟩

/-- A successful selectBid found the project PENDING and performed the
project write and the two bid writes. -/
theorem selectBid_ok_shape {s : Store} {u : AuthUser} {pid : String}
    {bo so : Option String} {s2 : Store} {p2 : Project}
    (h : selectBid s u pid bo so = .ok (s2, p2)) :
    ∃ project sellerId bidId,
      findProject s pid = some project ∧ project.status = .PENDING ∧
      s2.projects = s.projects.map (fun q => if q.id == pid then
        { q with status := .IN_PROGRESS, sellerId := some sellerId } else q) ∧
      s2.bids = (s.bids.map (fun b => if b.id == bidId then
          { b with status := .ACCEPTED } else b)).map (fun b =>
        if b.projectId == pid && b.id != bidId then
          { b with status := .REJECTED } else b) := by
  unfold selectBid at h
  split at h
  · exact absurd h (by simp)
  split at h
  case h_2 _ project hproj =>
    split at h
    · exact absurd h (by simp)
    dsimp only at h
    split at h
    · exact absurd h (by simp)
    split at h
    · exact absurd h (by simp)
    · injection h with hpair
      rw [Prod.mk.injEq] at hpair
      refine ⟨project, so.getD "", bo.getD "", hproj, ?_, ?_, ?_⟩
      · cases hps : project.status <;> simp_all
      · rw [← hpair.1]
        rfl
      · rw [← hpair.1]
        rfl
  · exact absurd h (by simp)

/-- A successful completeProject found the project IN_PROGRESS and only
set its status to COMPLETED. -/
theorem completeProject_ok_shape {s : Store} {u : AuthUser} {pid : String}
    {s2 : Store} {p2 : Project}
    (h : completeProject s u pid = .ok (s2, p2)) :
    ∃ project, findProject s pid = some project ∧
      project.status = .IN_PROGRESS ∧
      s2.projects = s.projects.map (fun q => if q.id == pid then
        { q with status := .COMPLETED } else q) ∧
      s2.bids = s.bids := by
  unfold completeProject at h
  split at h
  · exact absurd h (by simp)
  case h_2 _ project hproj =>
    split at h
    · exact absurd h (by simp)
    split at h
    · exact absurd h (by simp)
    · injection h with hpair
      rw [Prod.mk.injEq] at hpair
      refine ⟨project, hproj, ?_, ?_, ?_⟩
      · cases hps : project.status <;> simp_all
      · rw [← hpair.1]
        rfl
      · rw [← hpair.1]
        rfl

/-- A successful createBid appends the returned bid, which belongs to the
caller, and no prior bid of the caller on that project existed. -/
theorem createBid_ok_shape {s : Store} {u : AuthUser} {newId : String}
    {po : Option String} {ao dto : Option Int} {mo : Option String}
    {s2 : Store} {b : Bid}
    (h : createBid s u newId po ao dto mo = .ok (s2, b)) :
    s2.projects = s.projects ∧ s2.bids = s.bids ++ [b] ∧
    b.sellerId = u.id ∧
    (∀ x ∈ s.bids, ¬(x.projectId = b.projectId ∧ x.sellerId = b.sellerId)) := by
  unfold createBid at h
  split at h
  · exact absurd h (by simp)
  split at h
  · exact absurd h (by simp)
  dsimp only at h
  split at h
  · exact absurd h (by simp)
  split at h
  · exact absurd h (by simp)
  split at h
  · exact absurd h (by simp)
  · injection h with hpair
    rw [Prod.mk.injEq] at hpair
    have hb : b = ⟨newId, ao.getD 0, dto.getD 0, mo.getD "", .PENDING,
        po.getD "", u.id⟩ := hpair.2.symm
    have hnone : findBidByProjectSeller s (po.getD "") u.id = none := by
      cases hfx : findBidByProjectSeller s (po.getD "") u.id <;> simp_all
    refine ⟨by rw [← hpair.1], by rw [← hpair.1, hb], by rw [hb], ?_⟩
    intro x hx hcon
    have := List.find?_eq_none.mp hnone x hx
    rw [hb] at hcon
    simp only at hcon
    exact this (by simp [hcon.1, hcon.2])

/-- The partial bid update never touches the bid's project or seller. -/
theorem applyBidUpdate_keeps (req : BidUpdate) (b : Bid) :
    (applyBidUpdate req b).projectId = b.projectId ∧
    (applyBidUpdate req b).sellerId = b.sellerId := by
  unfold applyBidUpdate
  cases ha : numTruthy req.amount <;>
    cases hd : numTruthy req.deliveryTime <;>
    cases hm : strTruthy req.message <;>
    simp [ha, hd, hm]

/-- A successful updateBid rewrites the matching bid rows through the
partial update and leaves the projects alone. -/
theorem updateBid_ok_shape {s : Store} {u : AuthUser} {bidId : String}
    {req : BidUpdate} {s2 : Store} {b2 : Bid}
    (h : updateBid s u bidId req = .ok (s2, b2)) :
    s2.projects = s.projects ∧
    s2.bids = s.bids.map (fun b => if b.id == bidId then applyBidUpdate req b else b) := by
  unfold updateBid at h
  split at h
  · exact absurd h (by simp)
  split at h
  · exact absurd h (by simp)
  split at h
  · exact absurd h (by simp)
  split at h
  · exact absurd h (by simp)
  · injection h with hpair
    rw [Prod.mk.injEq] at hpair
    rw [← hpair.1]
    exact ⟨rfl, rfl⟩

/-- A successful deleteBid removes the bid's rows and nothing else. -/
theorem deleteBid_ok_shape {s : Store} {u : AuthUser} {bidId : String}
    {s2 : Store} {m : String}
    (h : deleteBid s u bidId = .ok (s2, m)) :
    s2.projects = s.projects ∧
    s2.bids = s.bids.filter (fun b => b.id != bidId) := by
  unfold deleteBid at h
  split at h
  · exact absurd h (by simp)
  split at h
  · exact absurd h (by simp)
  split at h
  · exact absurd h (by simp)
  split at h
  · exact absurd h (by simp)
  · injection h with hpair
    rw [Prod.mk.injEq] at hpair
    rw [← hpair.1]
    exact ⟨rfl, rfl⟩

/-- A successful upload appends file rows only. -/
theorem uploadProjectFiles_ok_shape {s : Store} {u : AuthUser} {pid : String}
    {newIds : List String} {fs : List UploadFile} {s2 : Store} {recs : List FileRec}
    (h : uploadProjectFiles s u pid newIds fs = .ok (s2, recs)) :
    s2.projects = s.projects ∧ s2.bids = s.bids := by
  unfold uploadProjectFiles at h
  split at h
  · exact absurd h (by simp)
  dsimp only at h
  split at h
  · exact absurd h (by simp)
  split at h
  · exact absurd h (by simp)
  · injection h with hpair
    rw [Prod.mk.injEq] at hpair
    rw [← hpair.1]
    exact ⟨rfl, rfl⟩

/-- A failed operation leaves the store as it was. -/
theorem applyOp_error {s : Store} {op : Op} (e : ApiError)
    (h : runOp s op = .error e) : applyOp s op = s := by
  simp [applyOp, h]

/-- A successful operation leaves the store it returned. -/
theorem applyOp_ok {s : Store} {op : Op} (t : Store)
    (h : runOp s op = .ok t) : applyOp s op = t := by
  simp [applyOp, h]

/-- Project lookups only read the project table. -/
theorem findProject_congr {s t : Store} (h : t.projects = s.projects)
    (k : String) : findProject t k = findProject s k := by
  unfold findProject
  rw [h]

/-- Filtering away only rows the search predicate rejects does not change
the result of `find?`. -/
theorem find?_filter_of_imp {α : Type} (l : List α) (p q : α → Bool)
    (h : ∀ x, p x = true → q x = true) :
    (l.filter q).find? p = l.find? p := by
  induction l with
  | nil => rfl
  | cons a l ih =>
    by_cases hq : q a
    · rw [List.filter_cons_of_pos hq]
      by_cases hp : p a
      · rw [List.find?_cons_of_pos _ hp, List.find?_cons_of_pos _ hp]
      · rw [List.find?_cons_of_neg _ hp, List.find?_cons_of_neg _ hp, ih]
    · rw [List.filter_cons_of_neg hq]
      have hp : ¬p a = true := fun hpa => hq (h a hpa)
      rw [List.find?_cons_of_neg _ hp, ih]

/-- One step of the project status order: stay, or advance one stage. -/
def statusStep (a b : ProjectStatus) : Bool :=
  match a, b with
  | .PENDING, .PENDING => true
  | .PENDING, .IN_PROGRESS => true
  | .IN_PROGRESS, .IN_PROGRESS => true
  | .IN_PROGRESS, .COMPLETED => true
  | .COMPLETED, .COMPLETED => true
  | _, _ => false

/-- Staying put is a legal step. -/
theorem statusStep_refl (a : ProjectStatus) : statusStep a a = true := by
  cases a <;> rfl

/-- The partial project update never touches the status. -/
theorem applyProjectUpdate_status (req : ProjectUpdate) (p : Project) :
    (applyProjectUpdate req p).status = p.status := by
  rw [applyProjectUpdate_spec]

/-- C2: a project's status only moves forward along PENDING → IN_PROGRESS
→ COMPLETED under every operation — never backward, never skipping a stage
— and COMPLETED is terminal: once a project is COMPLETED, update, delete
and selectBid by its buyer all fail PRECONDITION (400). -/
theorem C2_project_status_monotonic (s : Store) (pid : String) (p : Project)
    (hfind : findProject s pid = some p) :
    (∀ op p2, findProject (applyOp s op) pid = some p2 →
      statusStep p.status p2.status = true) ∧
    (p.status = .COMPLETED →
      ∀ (user : AuthUser) (req : ProjectUpdate) (b se : String),
      user.id = p.buyerId → b ≠ "" → se ≠ "" →
      updateProject s user pid req =
        .error ⟨400, "Cannot update a project that is already in progress or completed"⟩ ∧
      deleteProject s user pid =
        .error ⟨400, "Cannot delete a project that is already in progress or completed"⟩ ∧
      selectBid s user pid (some b) (some se) =
        .error ⟨400, "Cannot select a bid for a project that is already in progress or completed"⟩) := by
  have hfind' : List.find? (fun q => q.id == pid) s.projects = some p := hfind
  have hpid : p.id = pid := by simpa using List.find?_some hfind'
  constructor
  · intro op p2 hp2
    cases op with
    | register hash nid n e pw r =>
      rcases hr : register hash s nid n e pw r with err | ⟨t, resp⟩
      · rw [applyOp_error err (by simp [runOp, hr, Except.map])] at hp2
        cases hfind.symm.trans hp2
        exact statusStep_refl _
      · rw [applyOp_ok t (by simp [runOp, hr, Except.map]),
          findProject_congr (register_ok_shape hr).1] at hp2
        cases hfind.symm.trans hp2
        exact statusStep_refl _
    | login bc e pw =>
      rcases hr : login bc s e pw with err | ⟨t, resp⟩
      · rw [applyOp_error err (by simp [runOp, hr, Except.map])] at hp2
        cases hfind.symm.trans hp2
        exact statusStep_refl _
      · rw [applyOp_ok t (by simp [runOp, hr, Except.map]), login_ok_shape hr] at hp2
        cases hfind.symm.trans hp2
        exact statusStep_refl _
    | createProject u nid t d b dl =>
      rcases hr : createProject s u nid t d b dl with err | ⟨t2, pnew⟩
      · rw [applyOp_error err (by simp [runOp, hr, Except.map])] at hp2
        cases hfind.symm.trans hp2
        exact statusStep_refl _
      · rw [applyOp_ok t2 (by simp [runOp, hr, Except.map])] at hp2
        unfold findProject at hp2
        rw [(createProject_ok_shape hr).1, List.find?_append, hfind'] at hp2
        simp only [Option.or_some] at hp2
        cases hp2
        exact statusStep_refl _
    | updateProject u pid2 req =>
      rcases hr : updateProject s u pid2 req with err | ⟨t, pres⟩
      · rw [applyOp_error err (by simp [runOp, hr, Except.map])] at hp2
        cases hfind.symm.trans hp2
        exact statusStep_refl _
      · rw [applyOp_ok t (by simp [runOp, hr, Except.map])] at hp2
        unfold findProject at hp2
        rw [(updateProject_ok_shape hr).1,
          find?_id_map _ _ (fun q => by
            by_cases hq : q.id == pid2 <;> simp [hq, applyProjectUpdate_id]) pid,
          hfind', Option.map_some'] at hp2
        cases hp2
        by_cases hq : p.id == pid2 <;>
          simp [hq, applyProjectUpdate_status, statusStep_refl]
    | deleteProject u pid2 =>
      rcases hr : deleteProject s u pid2 with err | ⟨t, m⟩
      · rw [applyOp_error err (by simp [runOp, hr, Except.map])] at hp2
        cases hfind.symm.trans hp2
        exact statusStep_refl _
      · rw [applyOp_ok t (by simp [runOp, hr, Except.map])] at hp2
        unfold findProject at hp2
        rw [(deleteProject_ok_shape hr).1] at hp2
        by_cases hpp : pid = pid2
        · subst hpp
          rw [List.find?_eq_none.mpr (fun x hx => by
            have := (List.mem_filter.mp hx).2
            simp_all)] at hp2
          cases hp2
        · rw [find?_filter_of_imp _ _ _ (fun x hx => by
            have hxid : x.id = pid := by simpa using hx
            simp [hxid, hpp]), hfind'] at hp2
          cases hp2
          exact statusStep_refl _
    | selectBid u pid2 bo so =>
      rcases hr : selectBid s u pid2 bo so with err | ⟨t, pres⟩
      · rw [applyOp_error err (by simp [runOp, hr, Except.map])] at hp2
        cases hfind.symm.trans hp2
        exact statusStep_refl _
      · obtain ⟨project, sellerId, bidId, hproj, hpend, hprojects, hbids⟩ :=
          selectBid_ok_shape hr
        rw [applyOp_ok t (by simp [runOp, hr, Except.map])] at hp2
        unfold findProject at hp2
        rw [hprojects,
          find?_id_map _ _ (fun q => by by_cases hq : q.id == pid2 <;> simp [hq]) pid,
          hfind', Option.map_some'] at hp2
        cases hp2
        by_cases hq : p.id == pid2
        · have hpp : pid = pid2 := by
            rw [← hpid]
            simpa using hq
          subst hpp
          cases hfind.symm.trans hproj
          simp only [hq, if_true]
          rw [show p.status = ProjectStatus.PENDING from hpend]
          rfl
        · simp [hq, statusStep_refl]
    | completeProject u pid2 =>
      rcases hr : completeProject s u pid2 with err | ⟨t, pres⟩
      · rw [applyOp_error err (by simp [runOp, hr, Except.map])] at hp2
        cases hfind.symm.trans hp2
        exact statusStep_refl _
      · obtain ⟨project, hproj, hprog, hprojects, hbids⟩ := completeProject_ok_shape hr
        rw [applyOp_ok t (by simp [runOp, hr, Except.map])] at hp2
        unfold findProject at hp2
        rw [hprojects,
          find?_id_map _ _ (fun q => by by_cases hq : q.id == pid2 <;> simp [hq]) pid,
          hfind', Option.map_some'] at hp2
        cases hp2
        by_cases hq : p.id == pid2
        · have hpp : pid = pid2 := by
            rw [← hpid]
            simpa using hq
          subst hpp
          cases hfind.symm.trans hproj
          simp [hq]
          rw [show p.status = ProjectStatus.IN_PROGRESS from hprog]
          rfl
        · simp [hq, statusStep_refl]
    | createBid u nid po ao dto mo =>
      rcases hr : createBid s u nid po ao dto mo with err | ⟨t, bnew⟩
      · rw [applyOp_error err (by simp [runOp, hr, Except.map])] at hp2
        cases hfind.symm.trans hp2
        exact statusStep_refl _
      · rw [applyOp_ok t (by simp [runOp, hr, Except.map]),
          findProject_congr (createBid_ok_shape hr).1] at hp2
        cases hfind.symm.trans hp2
        exact statusStep_refl _
    | updateBid u bid2 req =>
      rcases hr : updateBid s u bid2 req with err | ⟨t, bres⟩
      · rw [applyOp_error err (by simp [runOp, hr, Except.map])] at hp2
        cases hfind.symm.trans hp2
        exact statusStep_refl _
      · rw [applyOp_ok t (by simp [runOp, hr, Except.map]),
          findProject_congr (updateBid_ok_shape hr).1] at hp2
        cases hfind.symm.trans hp2
        exact statusStep_refl _
    | deleteBid u bid2 =>
      rcases hr : deleteBid s u bid2 with err | ⟨t, m⟩
      · rw [applyOp_error err (by simp [runOp, hr, Except.map])] at hp2
        cases hfind.symm.trans hp2
        exact statusStep_refl _
      · rw [applyOp_ok t (by simp [runOp, hr, Except.map]),
          findProject_congr (deleteBid_ok_shape hr).1] at hp2
        cases hfind.symm.trans hp2
        exact statusStep_refl _
    | uploadProjectFiles u pid2 ids fs =>
      rcases hr : uploadProjectFiles s u pid2 ids fs with err | ⟨t, recs⟩
      · rw [applyOp_error err (by simp [runOp, hr, Except.map])] at hp2
        cases hfind.symm.trans hp2
        exact statusStep_refl _
      · rw [applyOp_ok t (by simp [runOp, hr, Except.map]),
          findProject_congr (uploadProjectFiles_ok_shape hr).1] at hp2
        cases hfind.symm.trans hp2
        exact statusStep_refl _
  · intro hC user req b se huser hb hse
    have hbuyer : p.buyerId = user.id := huser.symm
    refine ⟨?_, ?_, ?_⟩
    · simp [updateProject, hfind, hbuyer, hC]
    · simp [deleteProject, hfind, hbuyer, hC]
    · simp [selectBid, strTruthy_some_true hb, strTruthy_some_true hse,
        hfind, hbuyer, hC]

/-- C2 witness: on the concrete completed project, update, delete and
selectBid by the buyer all fail 400. -/
theorem C2_project_status_monotonic_witness :
    updateProject store1 buyerAuth "p2" ⟨none, none, none, none⟩ =
      .error ⟨400, "Cannot update a project that is already in progress or completed"⟩ ∧
    deleteProject store1 buyerAuth "p2" =
      .error ⟨400, "Cannot delete a project that is already in progress or completed"⟩ ∧
    selectBid store1 buyerAuth "p2" (some "b1") (some "u2") =
      .error ⟨400, "Cannot select a bid for a project that is already in progress or completed"⟩ :=
  (C2_project_status_monotonic store1 "p2" completedProject (by decide)).2
    (by decide) buyerAuth ⟨none, none, none, none⟩ "b1" "u2" (by decide)
    (by decide) (by decide)

/-- No seller holds two bids on the same project. -/
def sellerBidUnique (s : Store) : Prop :=
  s.bids.Pairwise (fun b1 b2 =>
    ¬(b1.projectId = b2.projectId ∧ b1.sellerId = b2.sellerId))

/-- Rewriting bid rows without touching project or seller keeps the
uniqueness invariant. -/
theorem sellerBidUnique_map {s t : Store} (g : Bid → Bid)
    (hg : ∀ b, (g b).projectId = b.projectId ∧ (g b).sellerId = b.sellerId)
    (h : t.bids = s.bids.map g) (hs : sellerBidUnique s) : sellerBidUnique t := by
  unfold sellerBidUnique at hs ⊢
  rw [h, List.pairwise_map]
  refine hs.imp ?_
  intro a b hab hcon
  exact hab ⟨by rw [← (hg a).1, hcon.1, (hg b).1],
             by rw [← (hg a).2, hcon.2, (hg b).2]⟩

/-- Removing bid rows keeps the uniqueness invariant. -/
theorem sellerBidUnique_filter {s t : Store} (q : Bid → Bool)
    (h : t.bids = s.bids.filter q) (hs : sellerBidUnique s) : sellerBidUnique t := by
  unfold sellerBidUnique at hs ⊢
  rw [h]
  exact List.Pairwise.sublist (List.filter_sublist _) hs

/-- Leaving the bid table alone keeps the uniqueness invariant. -/
theorem sellerBidUnique_eq {s t : Store} (h : t.bids = s.bids)
    (hs : sellerBidUnique s) : sellerBidUnique t := by
  unfold sellerBidUnique at hs ⊢
  rw [h]
  exact hs

/-- C6: a seller who already has a bid on a (still PENDING) project gets
CONFLICT (400, "You have already placed a bid on this project") when
bidding again, with the store untouched — and no operation of the system
ever makes a seller hold two bids on the same project. -/
theorem C6_duplicate_bid_conflict (s : Store) (user : AuthUser)
    (newId pid m : String) (a d : Int) (project : Project)
    (hrole : user.role = .SELLER) (hpid : pid ≠ "") (ha : a ≠ 0) (hd : d ≠ 0)
    (hm : m ≠ "") :
    (findProject s pid = some project → project.status = .PENDING →
      (findBidByProjectSeller s pid user.id).isSome = true →
      createBid s user newId (some pid) (some a) (some d) (some m) =
        .error ⟨400, "You have already placed a bid on this project"⟩ ∧
      applyOp s (.createBid user newId (some pid) (some a) (some d) (some m)) = s) ∧
    (∀ op, sellerBidUnique s → sellerBidUnique (applyOp s op)) := by
  constructor
  · intro hfind hstatus hdup
    have herr : createBid s user newId (some pid) (some a) (some d) (some m) =
        .error ⟨400, "You have already placed a bid on this project"⟩ := by
      simp [createBid, hrole, strTruthy_some_true hpid, strTruthy_some_true hm,
        numTruthy_some_true ha, numTruthy_some_true hd, hfind, hstatus, hdup]
    exact ⟨herr, by simp [applyOp, runOp, herr, Except.map]⟩
  · intro op hs
    cases op with
    | register hash nid n e pw r =>
      rcases hr : register hash s nid n e pw r with err | ⟨t, resp⟩
      · rw [applyOp_error err (by simp [runOp, hr, Except.map])]
        exact hs
      · rw [applyOp_ok t (by simp [runOp, hr, Except.map])]
        exact sellerBidUnique_eq (register_ok_shape hr).2 hs
    | login bc e pw =>
      rcases hr : login bc s e pw with err | ⟨t, resp⟩
      · rw [applyOp_error err (by simp [runOp, hr, Except.map])]
        exact hs
      · rw [applyOp_ok t (by simp [runOp, hr, Except.map]), login_ok_shape hr]
        exact hs
    | createProject u nid t d b dl =>
      rcases hr : createProject s u nid t d b dl with err | ⟨t2, pnew⟩
      · rw [applyOp_error err (by simp [runOp, hr, Except.map])]
        exact hs
      · rw [applyOp_ok t2 (by simp [runOp, hr, Except.map])]
        exact sellerBidUnique_eq (createProject_ok_shape hr).2 hs
    | updateProject u pid2 req =>
      rcases hr : updateProject s u pid2 req with err | ⟨t, pres⟩
      · rw [applyOp_error err (by simp [runOp, hr, Except.map])]
        exact hs
      · rw [applyOp_ok t (by simp [runOp, hr, Except.map])]
        exact sellerBidUnique_eq (updateProject_ok_shape hr).2 hs
    | deleteProject u pid2 =>
      rcases hr : deleteProject s u pid2 with err | ⟨t, m2⟩
      · rw [applyOp_error err (by simp [runOp, hr, Except.map])]
        exact hs
      · rw [applyOp_ok t (by simp [runOp, hr, Except.map])]
        exact sellerBidUnique_filter _ (deleteProject_ok_shape hr).2 hs
    | selectBid u pid2 bo so =>
      rcases hr : selectBid s u pid2 bo so with err | ⟨t, pres⟩
      · rw [applyOp_error err (by simp [runOp, hr, Except.map])]
        exact hs
      · obtain ⟨project2, sellerId, bidId, hproj, hpend, hprojects, hbids⟩ :=
          selectBid_ok_shape hr
        rw [applyOp_ok t (by simp [runOp, hr, Except.map])]
        rw [List.map_map] at hbids
        refine sellerBidUnique_map _ (fun b => ?_) hbids hs
        constructor <;>
          (by_cases h1 : b.id == bidId <;>
            by_cases h2 : (b.projectId == pid2 && b.id != bidId) = true <;>
            simp [Function.comp, h1, h2])
    | completeProject u pid2 =>
      rcases hr : completeProject s u pid2 with err | ⟨t, pres⟩
      · rw [applyOp_error err (by simp [runOp, hr, Except.map])]
        exact hs
      · obtain ⟨project2, hproj, hprog, hprojects, hbids⟩ := completeProject_ok_shape hr
        rw [applyOp_ok t (by simp [runOp, hr, Except.map])]
        exact sellerBidUnique_eq hbids hs
    | createBid u nid po ao dto mo =>
      rcases hr : createBid s u nid po ao dto mo with err | ⟨t, bnew⟩
      · rw [applyOp_error err (by simp [runOp, hr, Except.map])]
        exact hs
      · obtain ⟨hproj2, hbids, hsid, hfresh⟩ := createBid_ok_shape hr
        rw [applyOp_ok t (by simp [runOp, hr, Except.map])]
        unfold sellerBidUnique at hs ⊢
        rw [hbids, List.pairwise_append]
        refine ⟨hs, by simp, ?_⟩
        intro x hx y hy
        rw [List.mem_singleton.mp hy]
        exact hfresh x hx
    | updateBid u bid2 req =>
      rcases hr : updateBid s u bid2 req with err | ⟨t, bres⟩
      · rw [applyOp_error err (by simp [runOp, hr, Except.map])]
        exact hs
      · rw [applyOp_ok t (by simp [runOp, hr, Except.map])]
        refine sellerBidUnique_map _ (fun b => ?_) (updateBid_ok_shape hr).2 hs
        by_cases h1 : b.id == bid2 <;> simp [h1, applyBidUpdate_keeps]
    | deleteBid u bid2 =>
      rcases hr : deleteBid s u bid2 with err | ⟨t, m2⟩
      · rw [applyOp_error err (by simp [runOp, hr, Except.map])]
        exact hs
      · rw [applyOp_ok t (by simp [runOp, hr, Except.map])]
        exact sellerBidUnique_filter _ (deleteBid_ok_shape hr).2 hs
    | uploadProjectFiles u pid2 ids fs =>
      rcases hr : uploadProjectFiles s u pid2 ids fs with err | ⟨t, recs⟩
      · rw [applyOp_error err (by simp [runOp, hr, Except.map])]
        exact hs
      · rw [applyOp_ok t (by simp [runOp, hr, Except.map])]
        exact sellerBidUnique_eq (uploadProjectFiles_ok_shape hr).2 hs

/-- C6 witness: seller u2, who already bid on p1, gets the 400 duplicate
error and the concrete store is unchanged. -/
theorem C6_duplicate_bid_conflict_witness :
    createBid store1 sellerAuth "b9" (some "p1") (some 120) (some 4) (some "again") =
      .error ⟨400, "You have already placed a bid on this project"⟩ ∧
    applyOp store1 (.createBid sellerAuth "b9" (some "p1") (some 120) (some 4)
      (some "again")) = store1 :=
  (C6_duplicate_bid_conflict store1 sellerAuth "b9" "p1" "again" 120 4
    pendingProject (by decide) (by decide) (by decide) (by decide) (by decide)).1
    (by decide) (by decide) (by decide)

/-- Every error any operation can return carries one of the status codes
of the error taxonomy (500 only on the branches the schema's foreign keys
rule out). -/
theorem runOp_error_code {s : Store} {op : Op} {e : ApiError}
    (h : runOp s op = .error e) :
    e.statusCode = 400 ∨ e.statusCode = 401 ∨ e.statusCode = 403 ∨
    e.statusCode = 404 ∨ e.statusCode = 409 ∨ e.statusCode = 500 := by
  cases op with
  | register hash nid n em pw r =>
    simp only [runOp] at h
    rcases hr : register hash s nid n em pw r with err | ok
    · rw [hr] at h
      simp only [Except.map] at h
      injection h with h2
      subst h2
      unfold register at hr
      try dsimp only at hr
      repeat' split at hr
      all_goals (cases hr; try simp)
    · rw [hr] at h
      simp only [Except.map] at h
      cases h
  | login bc em pw =>
    simp only [runOp] at h
    rcases hr : login bc s em pw with err | ok
    · rw [hr] at h
      simp only [Except.map] at h
      injection h with h2
      subst h2
      unfold login at hr
      try dsimp only at hr
      repeat' split at hr
      all_goals (cases hr; try simp)
    · rw [hr] at h
      simp only [Except.map] at h
      cases h
  | createProject u nid t d b dl =>
    simp only [runOp] at h
    rcases hr : createProject s u nid t d b dl with err | ok
    · rw [hr] at h
      simp only [Except.map] at h
      injection h with h2
      subst h2
      unfold createProject at hr
      try dsimp only at hr
      repeat' split at hr
      all_goals (cases hr; try simp)
    · rw [hr] at h
      simp only [Except.map] at h
      cases h
  | updateProject u pid req =>
    simp only [runOp] at h
    rcases hr : updateProject s u pid req with err | ok
    · rw [hr] at h
      simp only [Except.map] at h
      injection h with h2
      subst h2
      unfold updateProject at hr
      try dsimp only at hr
      repeat' split at hr
      all_goals (cases hr; try simp)
    · rw [hr] at h
      simp only [Except.map] at h
      cases h
  | deleteProject u pid =>
    simp only [runOp] at h
    rcases hr : deleteProject s u pid with err | ok
    · rw [hr] at h
      simp only [Except.map] at h
      injection h with h2
      subst h2
      unfold deleteProject at hr
      try dsimp only at hr
      repeat' split at hr
      all_goals (cases hr; try simp)
    · rw [hr] at h
      simp only [Except.map] at h
      cases h
  | selectBid u pid bo so =>
    simp only [runOp] at h
    rcases hr : selectBid s u pid bo so with err | ok
    · rw [hr] at h
      simp only [Except.map] at h
      injection h with h2
      subst h2
      unfold selectBid at hr
      try dsimp only at hr
      repeat' split at hr
      all_goals (cases hr; try simp)
    · rw [hr] at h
      simp only [Except.map] at h
      cases h
  | completeProject u pid =>
    simp only [runOp] at h
    rcases hr : completeProject s u pid with err | ok
    · rw [hr] at h
      simp only [Except.map] at h
      injection h with h2
      subst h2
      unfold completeProject at hr
      try dsimp only at hr
      repeat' split at hr
      all_goals (cases hr; try simp)
    · rw [hr] at h
      simp only [Except.map] at h
      cases h
  | createBid u nid po ao dto mo =>
    simp only [runOp] at h
    rcases hr : createBid s u nid po ao dto mo with err | ok
    · rw [hr] at h
      simp only [Except.map] at h
      injection h with h2
      subst h2
      unfold createBid at hr
      try dsimp only at hr
      repeat' split at hr
      all_goals (cases hr; try simp)
    · rw [hr] at h
      simp only [Except.map] at h
      cases h
  | updateBid u bid req =>
    simp only [runOp] at h
    rcases hr : updateBid s u bid req with err | ok
    · rw [hr] at h
      simp only [Except.map] at h
      injection h with h2
      subst h2
      unfold updateBid at hr
      try dsimp only at hr
      repeat' split at hr
      all_goals (cases hr; try simp)
    · rw [hr] at h
      simp only [Except.map] at h
      cases h
  | deleteBid u bid =>
    simp only [runOp] at h
    rcases hr : deleteBid s u bid with err | ok
    · rw [hr] at h
      simp only [Except.map] at h
      injection h with h2
      subst h2
      unfold deleteBid at hr
      try dsimp only at hr
      repeat' split at hr
      all_goals (cases hr; try simp)
    · rw [hr] at h
      simp only [Except.map] at h
      cases h
  | uploadProjectFiles u pid ids fs =>
    simp only [runOp] at h
    rcases hr : uploadProjectFiles s u pid ids fs with err | ok
    · rw [hr] at h
      simp only [Except.map] at h
      injection h with h2
      subst h2
      unfold uploadProjectFiles at hr
      try dsimp only at hr
      repeat' split at hr
      all_goals (cases hr; try simp)
    · rw [hr] at h
      simp only [Except.map] at h
      cases h

/-- C10: whenever any operation of the system returns an error, the store
is exactly as before the call — every check is performed before the
operation's first write — and the error carries a taxonomy status code. -/
theorem C10_error_no_mutation (s : Store) (op : Op) (e : ApiError)
    (h : runOp s op = .error e) :
    applyOp s op = s ∧
    (e.statusCode = 400 ∨ e.statusCode = 401 ∨ e.statusCode = 403 ∨
     e.statusCode = 404 ∨ e.statusCode = 409 ∨ e.statusCode = 500) :=
  ⟨applyOp_error e h, runOp_error_code h⟩

/-- C10 witness: a seller trying to update another user's project fails
403 and the concrete store is unchanged. -/
theorem C10_error_no_mutation_witness :
    applyOp store1 (.updateProject sellerAuth "p1" ⟨some "X", none, none, none⟩) =
      store1 ∧
    ((403 : Nat) = 400 ∨ (403 : Nat) = 401 ∨ (403 : Nat) = 403 ∨
     (403 : Nat) = 404 ∨ (403 : Nat) = 409 ∨ (403 : Nat) = 500) :=
  C10_error_no_mutation store1
    (.updateProject sellerAuth "p1" ⟨some "X", none, none, none⟩)
    ⟨403, "You are not authorized to update this project"⟩ (by decide)

end BidSync
